import Mathlib

/-
  Verification development for the trading-bot repository (src/main.py).

  The whole program lives in one Python file.  This file gives a shallow
  embedding of its four components — Notifier (`send`), Normalizer
  (`_normalize_columns`), Fetcher (`fetch_nifty_daily`), Analyzer
  (`analyze`) — and the top level (`run_once`), and proves/refutes the
  frozen claims about them.

  Modelling conventions:
  * pandas DataFrames are modelled as flat tables (`Table`): a list of
    column names plus rows, each row carrying its index label.  On a flat
    frame both `isinstance(df.columns, pd.MultiIndex)` checks in
    `_normalize_columns` (source lines 48-67) are false, so those branches
    are identity and are not modelled; the claims only concern flat frames.
    Column labels are assumed unique (as produced by yfinance).
  * a cell either holds a numeric value (`Cell.num`, the value
    `pd.to_numeric` yields for it), is NaN (`Cell.nan`), or is a
    non-numeric value (`Cell.other`, coerced to NaN by
    `pd.to_numeric(errors="coerce")`).
  * float64 arithmetic is idealised as exact rational arithmetic; float
    NaN is `Option.none`, and the Python semantics `nan < x = False`,
    `nan > x = False` is modelled explicitly (`optLt`, `optGt`).
  * `round(x, 2)` (banker's rounding) is modelled with Mathlib's `round`
    (half-up); the two differ only at exact half-cent ties, which no claim
    depends on.
  * external effects (console prints, the Telegram HTTP POST) are recorded
    as an event trace; the network outcome is an oracle input
    (`NetOutcome`), and Python exceptions are `Except` values.
  * `str`/`repr`/`"%.2f"` text renderings of values are abstracted by
    `toString`-based functions; no claim inspects those substrings.
-/

namespace TradingBot

/-- Trading signal emitted by `analyze` (src/main.py lines 115-119). -/
inductive Signal
  | BUY
  | SELL
  | HOLD
  deriving DecidableEq

/-- Python exceptions that the program can raise. `runtimeError` embeds
`RuntimeError(msg)`; `httpError` embeds `requests.HTTPError` from
`raise_for_status`; `connectionError` embeds a network-level failure of
`requests.post`. -/
inductive Err
  | runtimeError (msg : String)
  | httpError (status : Nat)
  | connectionError (msg : String)
  deriving DecidableEq

/-- Observable external effects, in order of occurrence. -/
inductive Event
  | console (line : String)
  | telegramPost (token chatId text : String) (timeoutSeconds : Nat)
  deriving DecidableEq

/-- Environment-sourced configuration (src/main.py lines 12-17), read once
at startup: each field is the resolved value of its `os.getenv` chain
(`none` = variable unset). -/
structure Config where
  telegramToken : Option String
  telegramChat : Option String
  zerodhaKey : Option String
  zerodhaSecret : Option String
  deriving DecidableEq

/-- Python truthiness of an optional string: `None` and `""` are falsy. -/
def truthy : Option String → Bool
  | none => false
  | some s => !s.isEmpty

/-- Outcome of the single `requests.post` call, supplied as an oracle:
either an HTTP response with a status code, or a network-level error. -/
inductive NetOutcome
  | response (status : Nat)
  | netError (msg : String)
  deriving DecidableEq

/-- `repr(e)` for an exception, abstracted. -/
def Err.pyRepr : Err → String
  | Err.runtimeError m => "RuntimeError: " ++ m
  | Err.httpError s => "HTTPError: " ++ toString s
  | Err.connectionError m => "ConnectionError: " ++ m

/-- `str(e)` for an exception, abstracted. -/
def Err.pyStr : Err → String
  | Err.runtimeError m => m
  | Err.httpError s => "HTTPError " ++ toString s
  | Err.connectionError m => m

/-- The first console line of `send` (src/main.py line 23):
`print("SEND ->", msg.replace("\n", " | ")[:400])` — newlines are replaced
first, then the result is truncated to 400 characters. -/
def sendHeader (msg : String) : String :=
  "SEND -> " ++ ((msg.replace "\n" " | ").take 400)

/-- The `try` block of `send` (src/main.py lines 27-34): the POST to the
Telegram API with `timeout=20`, then `raise_for_status()` (raises for
status codes in [400, 600)), then the OK print.  Returns the events that
occurred together with the exception, if one was raised. -/
def sendTryBlock (token chatId msg : String) (net : NetOutcome) :
    List Event × Except Err Unit :=
  let postEv := Event.telegramPost token chatId msg 20
  match net with
  | NetOutcome.netError m => ([postEv], Except.error (Err.connectionError m))
  | NetOutcome.response s =>
    if 400 ≤ s ∧ s < 600 then ([postEv], Except.error (Err.httpError s))
    else ([postEv, Event.console ("Telegram OK: " ++ toString s)], Except.ok ())

/-- The Notifier `send` (src/main.py lines 21-36).  Always prints the
header first; if either credential is falsy it prints a warning and
returns; otherwise it runs the try block and absorbs any exception with
the `except` handler (line 35), printing the failure.  The second
component is the exception `send` itself propagates — always `ok`. -/
def send (cfg : Config) (msg : String) (net : NetOutcome) :
    List Event × Except Err Unit :=
  let hdr := Event.console (sendHeader msg)
  if truthy cfg.telegramToken = false ∨ truthy cfg.telegramChat = false then
    ([hdr, Event.console "⚠️  No Telegram credentials set; printing only."],
     Except.ok ())
  else
    match sendTryBlock (cfg.telegramToken.getD "") (cfg.telegramChat.getD "") msg net with
    | (evs, Except.ok _) => (hdr :: evs, Except.ok ())
    | (evs, Except.error e) =>
        (hdr :: (evs ++ [Event.console ("Telegram send failed: " ++ e.pyRepr)]),
         Except.ok ())

/-- A cell of a raw table. `num q` is a value `pd.to_numeric` parses to
`q`; `nan` is a float NaN; `other raw` is a value it cannot parse (coerced
to NaN by `errors="coerce"`). -/
inductive Cell
  | num (q : ℚ)
  | nan
  | other (raw : String)
  deriving DecidableEq

/-- `pd.to_numeric(·, errors="coerce")` on one cell. -/
def Cell.toNumericCoerce : Cell → Cell
  | Cell.num q => Cell.num q
  | _ => Cell.nan

/-- Is the cell a (non-NaN) numeric value? -/
def Cell.isNum : Cell → Bool
  | Cell.num _ => true
  | _ => false

/-- `str(·)` of a cell, abstracted. -/
def Cell.pyStr : Cell → String
  | Cell.num q => toString q
  | Cell.nan => "nan"
  | Cell.other s => s

/-- A flat pandas DataFrame: named index with its labels attached to each
row, column names, and rows of cells. -/
structure Table where
  indexName : Option String
  cols : List String
  rows : List (Cell × List Cell)
  deriving DecidableEq

/-- `df.empty`: true when either axis has length zero. -/
def Table.empty (t : Table) : Bool :=
  t.rows.isEmpty || t.cols.isEmpty

/-- `df.rename(columns={old: new})`: renames every column label equal to
`old`. -/
def Table.rename (t : Table) (old new : String) : Table :=
  { t with cols := t.cols.map fun c => if c = old then new else c }

/-- Position of the first column with the given name (pandas `df[name]`
for unique labels). -/
def colIdx : List String → String → Option Nat
  | [], _ => none
  | c :: cs, name => if c = name then some 0 else (colIdx cs name).map (· + 1)

/-- Re-index rows with a fresh `RangeIndex` starting at `n`, moving the old
index label into the cells. -/
def reindexRows : Nat → List (Cell × List Cell) → List (Cell × List Cell)
  | _, [] => []
  | n, p :: ps => (Cell.num n, p.1 :: p.2) :: reindexRows (n + 1) ps

/-- `df.reset_index().rename(columns={"index": "Date"})` (src/main.py
line 90): the index becomes the first column, named after the index (or
`"index"` when unnamed), the new index is a `RangeIndex`, and any column
named `"index"` is then renamed to `"Date"`. -/
def Table.resetIndexAsDate (t : Table) : Table :=
  Table.rename
    { indexName := none,
      cols := (t.indexName.getD "index") :: t.cols,
      rows := reindexRows 0 t.rows }
    "index" "Date"

/-- The cells of the first column named `"Close"` (empty if there is
none). -/
def Table.closeColumn (t : Table) : List Cell :=
  match colIdx t.cols "Close" with
  | none => []
  | some i => t.rows.map fun p => p.2.getD i Cell.nan

/-- The per-row effect of lines 92-93 of src/main.py on the close column
at position `i`: coerce the cell to numeric, then keep the row only when
the coerced cell is not NaN. -/
def dropRowStep (i : Nat) (p : Cell × List Cell) : Option (Cell × List Cell) :=
  let r := p.2.set i ((p.2.getD i Cell.nan).toNumericCoerce)
  if (r.getD i Cell.nan).isNum then some (p.1, r) else none

/-- Lines 92-93 of src/main.py:
`df["Close"] = pd.to_numeric(df["Close"], errors="coerce")` followed by
`df.dropna(subset=["Close"])` — coerce the Close column and drop every row
whose coerced Close is NaN (keeping the index labels of surviving rows). -/
def Table.coerceCloseDropna (t : Table) : Table :=
  match colIdx t.cols "Close" with
  | none => t
  | some i => { t with rows := t.rows.filterMap (dropRowStep i) }

/-- The alias candidates tried in order at src/main.py line 78. -/
def aliasCandidates : List String := ["Adj Close", "Close|^NSEI", "^NSEI"]

/-- The close-column resolution phase (src/main.py lines 69-81): if a
column is literally named `"Close"` the frame is untouched; otherwise the
single column, or else the first alias candidate present, is renamed to
`"Close"`. -/
def resolveClose (t : Table) : Table :=
  if "Close" ∈ t.cols then t
  else
    match t.cols with
    | [only] => t.rename only "Close"
    | _ =>
      match aliasCandidates.find? (fun c => t.cols.contains c) with
      | some c => t.rename c "Close"
      | none => t

/-- The Normalizer `_normalize_columns` (src/main.py lines 39-94) on a
flat frame: raise on an empty frame; resolve the `"Close"` column; raise
if `"Close"` is still missing; materialise a `"Date"` column from the
index if absent; coerce `"Close"` to numeric and drop NaN rows. -/
def normalizeColumns (t : Table) : Except Err Table :=
  if t.empty then Except.error (Err.runtimeError "No data frame to normalize.")
  else
    if "Close" ∈ (resolveClose t).cols then
      Except.ok
        (Table.coerceCloseDropna
          (if "Date" ∈ (resolveClose t).cols then resolveClose t
           else (resolveClose t).resetIndexAsDate))
    else
      Except.error
        (Err.runtimeError
          ("Close column missing. Columns found: " ++ toString (resolveClose t).cols))

/-- The Fetcher `fetch_nifty_daily` (src/main.py lines 97-103).  The
yfinance download result is an oracle input (`none` = the call returned
`None`); an absent or empty frame raises, otherwise the frame is
normalized. -/
def fetchNiftyDaily (download : Option Table) : Except Err Table :=
  match download with
  | none => Except.error (Err.runtimeError "No data from yfinance for ^NSEI.")
  | some df =>
    if df.empty then Except.error (Err.runtimeError "No data from yfinance for ^NSEI.")
    else normalizeColumns df

/-- The data model's PriceSeries: ordered (date, closing-price) pairs. -/
abbrev PriceSeries := List (String × ℚ)

/-- The smoothing factor `alpha = 1/window` with `window = 14`
(ta/momentum.py, `RSIIndicator`). -/
def alpha : ℚ := 1 / 14

/-- One step of `ewm(alpha=…, adjust=False).mean()`:
`y ← (1 - alpha) * y + alpha * x`. -/
def ewmStep (acc v : ℚ) : ℚ := (1 - alpha) * acc + alpha * v

/-- Last value of the `adjust=False` exponentially weighted mean of a
series (`y₀ = x₀`); 0 for an empty series (unused: callers guarantee at
least 14 observations). -/
def ewmLastD : List ℚ → ℚ
  | [] => 0
  | x :: xs => xs.foldl ewmStep x

/-- `close.diff(1)`: NaN at position 0, then successive differences. -/
def diffs (closes : List ℚ) : List (Option ℚ) :=
  match closes with
  | [] => []
  | c :: rest => none :: List.zipWith (fun a b => some (b - a)) (c :: rest) rest

/-- `diff.where(diff > 0, 0.0)` on one entry: the NaN at position 0
compares false and becomes `0.0`. -/
def upMove : Option ℚ → ℚ
  | none => 0
  | some v => if 0 < v then v else 0

/-- `-diff.where(diff < 0, 0.0)` on one entry. -/
def downMove : Option ℚ → ℚ
  | none => 0
  | some v => if v < 0 then -v else 0

/-- Final value of the smoothed average gain. -/
def emaUp (closes : List ℚ) : ℚ := ewmLastD ((diffs closes).map upMove)

/-- Final value of the smoothed average loss. -/
def emaDown (closes : List ℚ) : ℚ := ewmLastD ((diffs closes).map downMove)

/-- The RSI value at the final row once the `min_periods=14` mask is
passed: `np.where(emadn == 0, 100, 100 - 100 / (1 + emaup / emadn))`. -/
def rsiFrom (closes : List ℚ) : ℚ :=
  if emaDown closes = 0 then 100
  else 100 - 100 / (1 + emaUp closes / emaDown closes)

/-- `RSIIndicator(close, window=14).rsi()` read at the final row
(`rsi.iloc[-1]` in src/main.py line 113).  With `fillna=False` the ewm
means carry `min_periods = 14`, so the final row's RSI is NaN (`none`)
exactly when the series has fewer than 14 rows. -/
def rsiLast (closes : List ℚ) : Option ℚ :=
  if closes.length < 14 then none
  else some (rsiFrom closes)

/-- Python `x < b` where `x` may be float NaN: NaN comparisons are false. -/
def optLt (x : Option ℚ) (b : ℚ) : Bool :=
  match x with
  | none => false
  | some v => decide (v < b)

/-- Python `x > b` where `x` may be float NaN. -/
def optGt (x : Option ℚ) (b : ℚ) : Bool :=
  match x with
  | none => false
  | some v => decide (b < v)

/-- The signal chain of src/main.py lines 115-119: `sig = "HOLD"`, then
`if last_rsi < 30: sig = "BUY"`, `elif last_rsi > 70: sig = "SELL"`. -/
def signalOf (lastRsi : Option ℚ) : Signal :=
  if optLt lastRsi 30 then Signal.BUY
  else if optGt lastRsi 70 then Signal.SELL
  else Signal.HOLD

/-- Python `round(x, 2)` on the exact value (tie-breaking idealised as
half-up; ties are immaterial to every claim). -/
def roundTo2 (q : ℚ) : ℚ := ((round (q * 100) : ℤ) : ℚ) / 100

/-- The result dict of `analyze` (src/main.py lines 121-126). `rsi` is
`none` when the final RSI is NaN. -/
structure AnalysisResult where
  date : String
  close : ℚ
  rsi : Option ℚ
  signal : Signal
  deriving DecidableEq

/-- The Analyzer `analyze` (src/main.py lines 106-126) on a PriceSeries
frame (`Date` string and numeric `Close` per row, the Normalizer's output
shape).  Raises exactly when the frame is empty; otherwise computes
RSI(14) on the close series and classifies the final row. -/
def analyze (s : PriceSeries) : Except Err AnalysisResult :=
  match s.getLast? with
  | none => Except.error (Err.runtimeError "Empty DataFrame in analyze().")
  | some last =>
    let lastRsi := rsiLast (s.map Prod.snd)
    Except.ok
      { date := last.1.take 19
        close := last.2
        rsi := lastRsi.map roundTo2
        signal := signalOf lastRsi }

/-- View a normalized frame as the PriceSeries fed to `analyze`: the
`Date` column rendered with `str` and the `Close` column's numeric values
(every `Close` cell of a Normalizer output is numeric; the 0 fallback is
unreachable there). -/
def Table.toPriceSeries (t : Table) : PriceSeries :=
  t.rows.map fun p =>
    ((match colIdx t.cols "Date" with
      | some i => (p.2.getD i Cell.nan).pyStr
      | none => ""),
     (match colIdx t.cols "Close" with
      | some i =>
        match p.2.getD i Cell.nan with
        | Cell.num q => q
        | _ => 0
      | none => 0))

/-- `f"{signal}"`. -/
def Signal.text : Signal → String
  | Signal.BUY => "BUY"
  | Signal.SELL => "SELL"
  | Signal.HOLD => "HOLD"

/-- The summary message of src/main.py lines 133-138 (numeric `%.2f`
formatting abstracted by `toString`). -/
def summaryText (out : AnalysisResult) : String :=
  "📈 NIFTY summary " ++ out.date ++ "\n" ++
  "Close: " ++ toString out.close ++ "\n" ++
  "RSI(14): " ++ (match out.rsi with | some q => toString q | none => "nan") ++ "\n" ++
  "Signal: " ++ out.signal.text

/-- The Zerodha key-presence console note (src/main.py lines 143-146). -/
def zerodhaNote (cfg : Config) : Event :=
  if truthy cfg.zerodhaKey && truthy cfg.zerodhaSecret then
    Event.console "Zerodha keys detected (not used in this phase)."
  else
    Event.console "ℹ️ Zerodha keys not set or not needed yet."

/-- The fallible part of `run_once`'s try block: fetch (+ normalize), then
analyze. -/
def pipeline (download : Option Table) : Except Err AnalysisResult :=
  match fetchNiftyDaily download with
  | Except.error e => Except.error e
  | Except.ok df => analyze df.toPriceSeries

/-- The top level `run_once` (src/main.py lines 129-153): on success,
print the summary, send it, and print the Zerodha note; on any exception
`e` from the pipeline, print and send `f"❗ Bot error: {e}"` and re-raise
`e` (the second component). -/
def run_once (cfg : Config) (download : Option Table) (net : NetOutcome) :
    List Event × Except Err Unit :=
  match pipeline download with
  | Except.ok out =>
    let text := summaryText out
    ((Event.console text :: (send cfg text net).1) ++ [zerodhaNote cfg], Except.ok ())
  | Except.error e =>
    let err := "❗ Bot error: " ++ e.pyStr
    (Event.console err :: (send cfg err net).1, Except.error e)

/-- Is an `Except` value a success? -/
def exceptIsOk {ε α : Type _} : Except ε α → Bool
  | Except.ok _ => true
  | Except.error _ => false

/-- A configuration with no environment variable set. -/
def noCfg : Config := ⟨none, none, none, none⟩

/-- A 15-row rising price series. -/
def series15 : PriceSeries :=
  [("d", 1), ("d", 2), ("d", 3), ("d", 4), ("d", 5), ("d", 6), ("d", 7), ("d", 8),
   ("d", 9), ("d", 10), ("d", 11), ("d", 12), ("d", 13), ("d", 14), ("d", 15)]

/-- A lowercase-"close" table: two columns, no exact "Close". -/
def lowercaseCloseTable : Table :=
  ⟨some "Date", ["close", "Open"], [(Cell.other "2024-01-01", [Cell.num 5, Cell.num 6])]⟩

/-- A table with both an exact "Close" column and a compound
"Close|^NSEI" column (the claim C3 scenario), indexed by dates. -/
def compoundTable : Table :=
  ⟨some "Date", ["Close", "Close|^NSEI"], [(Cell.other "2024-01-04", [Cell.num 7, Cell.num 8])]⟩

/-- A nonempty canonical table whose single close value is non-numeric. -/
def allNonNumericCloses : Table :=
  ⟨none, ["Date", "Close"], [(Cell.num 0, [Cell.other "2024-01-01", Cell.other "abc"])]⟩

/-- The empty canonical two-column table. -/
def emptyCanonical : Table := ⟨none, ["Date", "Close"], []⟩

/-- A one-row canonical (Date, Close) table with a numeric close. -/
def oneRowCanonical : Table :=
  ⟨none, ["Date", "Close"], [(Cell.num 0, [Cell.other "2024-01-02", Cell.num 101])]⟩

/-- A canonical table whose close value is negative. -/
def negativeCloseTable : Table :=
  ⟨none, ["Date", "Close"], [(Cell.num 0, [Cell.other "2024-01-03", Cell.num (-1)])]⟩

/-- A table that is empty on both axes. -/
def emptyTable : Table := ⟨none, [], []⟩

/- ===================== Theorems ===================== -/

lemma isNum_toNumericCoerce (c : Cell) : c.toNumericCoerce.isNum = c.isNum := by
  cases c <;> rfl

lemma toNumericCoerce_of_isNum (c : Cell) (h : c.isNum = true) : c.toNumericCoerce = c := by
  cases c with
  | num q => rfl
  | nan => exact absurd h (by simp [Cell.isNum])
  | other s => exact absurd h (by simp [Cell.isNum])

lemma getD_set_coerce (l : List Cell) (j : Nat) :
    (l.set j ((l.getD j Cell.nan).toNumericCoerce)).getD j Cell.nan
      = (l.getD j Cell.nan).toNumericCoerce := by
  induction l generalizing j with
  | nil => rfl
  | cons a l ih =>
    cases j with
    | zero => rfl
    | succ k =>
      simp only [List.getD_cons_succ, List.set_cons_succ]
      exact ih k

lemma colIdx_some_of_mem (l : List String) (name : String) (h : name ∈ l) :
    ∃ j, colIdx l name = some j := by
  induction l with
  | nil => cases h
  | cons c cs ih =>
    unfold colIdx
    by_cases hc : c = name
    · rw [if_pos hc]
      exact ⟨0, rfl⟩
    · rw [if_neg hc]
      have hmem : name ∈ cs := by
        rcases List.mem_cons.mp h with h1 | h2
        · exact absurd h1.symm hc
        · exact h2
      obtain ⟨j, hj⟩ := ih hmem
      exact ⟨j + 1, by rw [hj]; rfl⟩

lemma coerceCloseDropna_cols (t : Table) : (t.coerceCloseDropna).cols = t.cols := by
  unfold Table.coerceCloseDropna
  split <;> rfl

lemma dropRowStep_some (i : Nat) (p : Cell × List Cell)
    (h : (p.2.getD i Cell.nan).isNum = true) :
    dropRowStep i p = some (p.1, p.2.set i ((p.2.getD i Cell.nan).toNumericCoerce)) := by
  unfold dropRowStep
  dsimp only
  rw [getD_set_coerce, isNum_toNumericCoerce, h]
  rfl

lemma dropRowStep_none (i : Nat) (p : Cell × List Cell)
    (h : (p.2.getD i Cell.nan).isNum = false) :
    dropRowStep i p = none := by
  unfold dropRowStep
  dsimp only
  rw [getD_set_coerce, isNum_toNumericCoerce, h]
  rfl

/-- The list-level content of `coerceCloseDropna`: reading back column `j`
after coerce-and-drop yields exactly the numeric cells of column `j`. -/
lemma filterMap_close_step (j : Nat) (rows : List (Cell × List Cell)) :
    ((rows.filterMap (dropRowStep j)).map fun p => p.2.getD j Cell.nan)
    = (rows.map fun p => p.2.getD j Cell.nan).filter Cell.isNum := by
  induction rows with
  | nil => rfl
  | cons p ps ih =>
    cases hc : (p.2.getD j Cell.nan).isNum with
    | true =>
      rw [List.filterMap_cons, dropRowStep_some j p hc]
      dsimp only
      rw [List.map_cons, List.map_cons, List.filter_cons]
      dsimp only
      rw [getD_set_coerce, toNumericCoerce_of_isNum _ hc, hc, if_pos rfl]
      exact congrArg _ ih
    | false =>
      rw [List.filterMap_cons, dropRowStep_none j p hc]
      dsimp only
      rw [List.map_cons, List.filter_cons]
      rw [hc, if_neg Bool.false_ne_true]
      exact ih

lemma closeColumn_coerceCloseDropna (t : Table) (j : Nat)
    (hj : colIdx t.cols "Close" = some j) :
    (t.coerceCloseDropna).closeColumn = t.closeColumn.filter Cell.isNum := by
  unfold Table.closeColumn
  rw [coerceCloseDropna_cols, hj]
  unfold Table.coerceCloseDropna
  rw [hj]
  exact filterMap_close_step j t.rows

lemma rnm_close (c : String) :
    ((if c = "index" then "Date" else c) = "Close") ↔ c = "Close" := by
  by_cases hi : c = "index"
  · rw [if_pos hi]
    constructor
    · intro h
      exact absurd h (by decide)
    · intro h
      rw [h] at hi
      exact absurd hi (by decide)
  · rw [if_neg hi]

lemma colIdx_map_rnm (l : List String) :
    colIdx (l.map fun c => if c = "index" then "Date" else c) "Close" = colIdx l "Close" := by
  induction l with
  | nil => rfl
  | cons c cs ih =>
    simp only [List.map_cons]
    unfold colIdx
    by_cases hc : c = "Close"
    · rw [if_pos ((rnm_close c).mpr hc), if_pos hc]
    · rw [if_neg (fun h => hc ((rnm_close c).mp h)), if_neg hc, ih]

lemma reindex_map_getD (j : Nat) (rs : List (Cell × List Cell)) :
    ∀ n : Nat, ((reindexRows n rs).map fun p => p.2.getD (j + 1) Cell.nan)
      = rs.map fun p => p.2.getD j Cell.nan := by
  induction rs with
  | nil => intro n; rfl
  | cons p ps ih =>
    intro n
    simp only [reindexRows, List.map_cons, List.getD_cons_succ, ih (n + 1)]

/-- Resetting the index preserves membership of "Close" in the columns. -/
lemma close_mem_reset (t : Table) (h : "Close" ∈ t.cols) :
    "Close" ∈ (t.resetIndexAsDate).cols := by
  unfold Table.resetIndexAsDate Table.rename
  dsimp only
  rw [List.map_cons]
  exact List.mem_cons_of_mem _ (List.mem_map.mpr ⟨"Close", h, by decide⟩)

/-- Resetting the index does not change the close column (provided the
materialised index column is not itself named "Close"). -/
lemma closeColumn_reset (t : Table) (j : Nat) (hj : colIdx t.cols "Close" = some j)
    (hidx : t.indexName.getD "index" ≠ "Close") :
    colIdx (t.resetIndexAsDate).cols "Close" = some (j + 1) ∧
      (t.resetIndexAsDate).closeColumn = t.closeColumn := by
  have hcols : (t.resetIndexAsDate).cols =
      (if (t.indexName.getD "index") = "index" then "Date" else (t.indexName.getD "index")) ::
        (t.cols.map fun c => if c = "index" then "Date" else c) := by
    unfold Table.resetIndexAsDate Table.rename
    dsimp only
    rw [List.map_cons]
  have hhead : ¬((if (t.indexName.getD "index") = "index" then "Date"
      else (t.indexName.getD "index")) = "Close") := fun h => hidx ((rnm_close _).mp h)
  have hci : colIdx (t.resetIndexAsDate).cols "Close" = some (j + 1) := by
    rw [hcols]
    unfold colIdx
    rw [if_neg hhead, colIdx_map_rnm, hj]
    rfl
  refine ⟨hci, ?_⟩
  unfold Table.closeColumn
  rw [hci, hj]
  have hrows : (t.resetIndexAsDate).rows = reindexRows 0 t.rows := rfl
  rw [hrows]
  exact reindex_map_getD j t.rows 0

/-- Any successful Normalizer output has only numeric cells in its close
column. -/
lemma normalize_ok_closes_num (t u : Table) (h : normalizeColumns t = Except.ok u) :
    ∀ c ∈ u.closeColumn, c.isNum = true := by
  unfold normalizeColumns at h
  split at h
  · exact Except.noConfusion h
  · split at h
    · next hmem =>
      have hu : u = Table.coerceCloseDropna
          (if "Date" ∈ (resolveClose t).cols then resolveClose t
           else (resolveClose t).resetIndexAsDate) := by
        injection h with h'
        exact h'.symm
      by_cases hd : "Date" ∈ (resolveClose t).cols
      · rw [if_pos hd] at hu
        obtain ⟨j, hj⟩ := colIdx_some_of_mem _ _ hmem
        rw [hu, closeColumn_coerceCloseDropna _ j hj]
        intro c hc
        exact (List.mem_filter.mp hc).2
      · rw [if_neg hd] at hu
        obtain ⟨j, hj⟩ := colIdx_some_of_mem _ _ (close_mem_reset _ hmem)
        rw [hu, closeColumn_coerceCloseDropna _ j hj]
        intro c hc
        exact (List.mem_filter.mp hc).2
    · exact Except.noConfusion h

/-- C3 counterexample: a table whose price column is named "close"
(lowercase) is not matched — column resolution is case-sensitive, so the
Normalizer fails instead of selecting it. -/
theorem normalize_close_case_sensitivity_cex :
    lowercaseCloseTable.cols = ["close", "Open"] ∧
      exceptIsOk (normalizeColumns lowercaseCloseTable) = false :=
  ⟨rfl, rfl⟩

/-- C3 amended: a column named exactly "Close" (case-sensitively) always
wins: the resolution phase leaves the frame untouched, normalization
succeeds, and the output close column is exactly the numeric cells of the
input's first "Close" column — in particular a compound "Close|TICKER"
column present alongside is ignored. -/
theorem normalize_exact_close_wins (t : Table) (hne : t.empty = false)
    (hc : "Close" ∈ t.cols) (hidx : t.indexName.getD "index" ≠ "Close") :
    resolveClose t = t ∧
      ∃ u, normalizeColumns t = Except.ok u ∧
        u.closeColumn = t.closeColumn.filter Cell.isNum := by
  have hres : resolveClose t = t := by
    unfold resolveClose
    rw [if_pos hc]
  refine ⟨hres, ?_⟩
  obtain ⟨j, hj⟩ := colIdx_some_of_mem _ _ hc
  unfold normalizeColumns
  rw [hne, hres]
  simp only [Bool.false_eq_true, if_false, if_pos hc]
  by_cases hd : "Date" ∈ t.cols
  · rw [if_pos hd]
    exact ⟨_, rfl, closeColumn_coerceCloseDropna t j hj⟩
  · rw [if_neg hd]
    obtain ⟨hci, hcc⟩ := closeColumn_reset t j hj hidx
    refine ⟨_, rfl, ?_⟩
    rw [closeColumn_coerceCloseDropna _ (j + 1) hci, hcc]

/-- Witness for the amended C3 at the claim's own scenario: exact "Close"
plus compound "Close|^NSEI"; the exact column's value 7 is what survives. -/
theorem normalize_exact_close_wins_witness :
    resolveClose compoundTable = compoundTable ∧
      ∃ u, normalizeColumns compoundTable = Except.ok u ∧
        u.closeColumn = compoundTable.closeColumn.filter Cell.isNum :=
  normalize_exact_close_wins compoundTable rfl (by decide) (by decide)

/-- C4 counterexample: a nonempty raw table whose single close value is
non-numeric: all rows are dropped during cleaning and the Normalizer
returns an empty series instead of failing with an error. -/
theorem normalize_all_rows_dropped_cex :
    allNonNumericCloses.rows.length = 1 ∧
      normalizeColumns allNonNumericCloses = Except.ok ⟨none, ["Date", "Close"], []⟩ :=
  ⟨rfl, rfl⟩

/-- C4 amended: rows whose close value cannot be parsed as numeric are
dropped (every surviving close cell is numeric), and an empty raw input
table fails with a `RuntimeError`; but when all rows are dropped during
cleaning the Normalizer returns an empty series rather than failing. -/
theorem normalize_empty_error_and_numeric_rows (t : Table) :
    (t.empty = true →
      normalizeColumns t = Except.error (Err.runtimeError "No data frame to normalize.")) ∧
      (∀ u, normalizeColumns t = Except.ok u → u.closeColumn.all Cell.isNum = true) := by
  constructor
  · intro he
    unfold normalizeColumns
    rw [if_pos he]
  · intro u hu
    rw [List.all_eq_true]
    intro c hc
    exact normalize_ok_closes_num t u hu c hc

/-- Witness for the amended C4. -/
theorem normalize_empty_error_and_numeric_rows_witness :
    normalizeColumns emptyTable = Except.error (Err.runtimeError "No data frame to normalize.") ∧
      oneRowCanonical.closeColumn.all Cell.isNum = true :=
  ⟨(normalize_empty_error_and_numeric_rows emptyTable).1 rfl,
   (normalize_empty_error_and_numeric_rows oneRowCanonical).2 oneRowCanonical rfl⟩

lemma filterMap_canonical_id (rs : List (Cell × List Cell))
    (h : ∀ p ∈ rs, ∃ d q, p.2 = [d, Cell.num q]) :
    rs.filterMap (dropRowStep 1) = rs := by
  induction rs with
  | nil => rfl
  | cons p ps ih =>
    obtain ⟨d, q, hp⟩ := h p (List.mem_cons_self p ps)
    obtain ⟨ix, cells⟩ := p
    simp only at hp
    subst hp
    rw [List.filterMap_cons]
    have hstep : dropRowStep 1 (ix, [d, Cell.num q]) = some (ix, [d, Cell.num q]) := rfl
    rw [hstep]
    exact congrArg _ (ih fun r hr => h r (List.mem_cons_of_mem _ hr))

/-- C7 counterexample: the empty canonical (Date, Close) series is not
returned unchanged — the Normalizer raises on it. -/
theorem normalize_empty_canonical_cex :
    emptyCanonical.cols = ["Date", "Close"] ∧ emptyCanonical.rows = [] ∧
      normalizeColumns emptyCanonical =
        Except.error (Err.runtimeError "No data frame to normalize.") :=
  ⟨rfl, rfl, rfl⟩

/-- C7 amended: for every nonempty already-canonical two-column
(Date, Close) series with numeric closes, the Normalizer returns the
identical series (hence it is idempotent on such series). -/
theorem normalize_canonical_identity (t : Table) (hcols : t.cols = ["Date", "Close"])
    (hrows : t.rows ≠ []) (hshape : ∀ p ∈ t.rows, ∃ d q, p.2 = [d, Cell.num q]) :
    normalizeColumns t = Except.ok t := by
  have hne : t.empty = false := by
    unfold Table.empty
    rw [hcols]
    cases ht : t.rows with
    | nil => exact absurd ht hrows
    | cons p ps => rfl
  have hc : "Close" ∈ t.cols := by
    rw [hcols]
    simp
  have hd : "Date" ∈ t.cols := by
    rw [hcols]
    simp
  have hres : resolveClose t = t := by
    unfold resolveClose
    rw [if_pos hc]
  unfold normalizeColumns
  rw [hne, hres]
  simp only [Bool.false_eq_true, if_false, if_pos hc, if_pos hd]
  unfold Table.coerceCloseDropna
  have hj : colIdx t.cols "Close" = some 1 := by rw [hcols]; rfl
  rw [hj]
  dsimp only
  rw [filterMap_canonical_id t.rows hshape]

/-- Witness for the amended C7 at a concrete one-row canonical series. -/
theorem normalize_canonical_identity_witness :
    normalizeColumns oneRowCanonical = Except.ok oneRowCanonical :=
  normalize_canonical_identity oneRowCanonical rfl (by decide) (by
    intro p hp
    have h1 : p = (Cell.num 0, [Cell.other "2024-01-02", Cell.num 101]) := by
      simpa [oneRowCanonical] using hp
    exact ⟨Cell.other "2024-01-02", 101, by rw [h1]⟩)

/-- C8 counterexample: a negative close value survives normalization
untouched — positivity of closing prices is not enforced. -/
theorem normalize_nonpositive_close_survives_cex :
    normalizeColumns negativeCloseTable = Except.ok negativeCloseTable ∧
      negativeCloseTable.closeColumn = [Cell.num (-1)] ∧ ¬((0:ℚ) < -1) :=
  ⟨rfl, rfl, by norm_num⟩

/-- C8 amended: every close cell of a Normalizer-produced series is a
numeric (non-NaN) value; positivity is not part of the enforced
invariant. -/
theorem normalize_output_closes_numeric (t u : Table)
    (h : normalizeColumns t = Except.ok u) :
    ∀ c ∈ u.closeColumn, c.isNum = true :=
  normalize_ok_closes_num t u h

/-- Witness for the amended C8: the surviving (negative) close cell is
numeric. -/
theorem normalize_output_closes_numeric_witness :
    Cell.isNum (Cell.num (-1)) = true :=
  normalize_output_closes_numeric negativeCloseTable negativeCloseTable rfl
    (Cell.num (-1)) (by decide)

lemma upMove_nonneg (d : Option ℚ) : 0 ≤ upMove d := by
  cases d with
  | none => simp [upMove]
  | some v =>
    dsimp only [upMove]
    split
    · next hv => linarith
    · exact le_refl 0

lemma downMove_nonneg (d : Option ℚ) : 0 ≤ downMove d := by
  cases d with
  | none => simp [downMove]
  | some v =>
    dsimp only [downMove]
    split
    · next hv => linarith
    · exact le_refl 0

lemma foldl_ewmStep_nonneg (l : List ℚ) :
    ∀ a : ℚ, 0 ≤ a → (∀ x ∈ l, 0 ≤ x) → 0 ≤ l.foldl ewmStep a := by
  induction l with
  | nil => intro a ha _; simpa using ha
  | cons x xs ih =>
    intro a ha hl
    simp only [List.foldl_cons]
    apply ih
    · have hx : 0 ≤ x := hl x (List.mem_cons_self x xs)
      have ha1 : (0:ℚ) ≤ 1 - alpha := by norm_num [alpha]
      have ha2 : (0:ℚ) ≤ alpha := by norm_num [alpha]
      exact add_nonneg (mul_nonneg ha1 ha) (mul_nonneg ha2 hx)
    · intro y hy
      exact hl y (List.mem_cons_of_mem x hy)

lemma ewmLastD_nonneg (l : List ℚ) (h : ∀ x ∈ l, 0 ≤ x) : 0 ≤ ewmLastD l := by
  cases l with
  | nil => simp [ewmLastD]
  | cons x xs =>
    exact foldl_ewmStep_nonneg xs x (h x (List.mem_cons_self x xs))
      (fun y hy => h y (List.mem_cons_of_mem x hy))

lemma emaUp_nonneg (closes : List ℚ) : 0 ≤ emaUp closes := by
  apply ewmLastD_nonneg
  intro y hy
  rw [List.mem_map] at hy
  obtain ⟨d, _, rfl⟩ := hy
  exact upMove_nonneg d

lemma emaDown_nonneg (closes : List ℚ) : 0 ≤ emaDown closes := by
  apply ewmLastD_nonneg
  intro y hy
  rw [List.mem_map] at hy
  obtain ⟨d, _, rfl⟩ := hy
  exact downMove_nonneg d

lemma rsiFrom_bounds (closes : List ℚ) : 0 ≤ rsiFrom closes ∧ rsiFrom closes ≤ 100 := by
  unfold rsiFrom
  split
  · norm_num
  · next hne =>
    have hd : 0 < emaDown closes := lt_of_le_of_ne (emaDown_nonneg closes) (Ne.symm hne)
    have hu : 0 ≤ emaUp closes := emaUp_nonneg closes
    have hrs : 0 ≤ emaUp closes / emaDown closes := div_nonneg hu (le_of_lt hd)
    have h1 : (1:ℚ) ≤ 1 + emaUp closes / emaDown closes := by linarith
    have h0 : (0:ℚ) < 1 + emaUp closes / emaDown closes := by linarith
    have hdiv1 : 100 / (1 + emaUp closes / emaDown closes) ≤ 100 :=
      div_le_self (by norm_num) h1
    have hdiv0 : 0 ≤ 100 / (1 + emaUp closes / emaDown closes) :=
      div_nonneg (by norm_num) (le_of_lt h0)
    constructor <;> linarith

lemma rsiLast_eq_of_len (closes : List ℚ) (h : 14 ≤ closes.length) :
    rsiLast closes = some (rsiFrom closes) := by
  unfold rsiLast
  rw [if_neg (by omega)]

lemma round_mono_q {a b : ℚ} (h : a ≤ b) : round a ≤ round b := by
  rw [round_eq, round_eq]
  exact Int.floor_mono (by linarith)

lemma roundTo2_bounds (q : ℚ) (h0 : 0 ≤ q) (h1 : q ≤ 100) :
    0 ≤ roundTo2 q ∧ roundTo2 q ≤ 100 := by
  unfold roundTo2
  have hl : (0:ℤ) ≤ round (q * 100) := by
    have h := round_mono_q (show (0:ℚ) ≤ q * 100 by nlinarith)
    simpa using h
  have hr : round (q * 100) ≤ 10000 := by
    have h := round_mono_q (show q * 100 ≤ (10000:ℚ) by nlinarith)
    simpa using h
  constructor
  · apply div_nonneg _ (by norm_num)
    exact_mod_cast hl
  · rw [div_le_iff₀ (by norm_num : (0:ℚ) < 100)]
    calc ((round (q * 100) : ℤ) : ℚ) ≤ ((10000 : ℤ) : ℚ) := by exact_mod_cast hr
      _ = 100 * 100 := by norm_num

lemma signalOf_some (v : ℚ) :
    signalOf (some v) =
      if v < 30 then Signal.BUY else if 70 < v then Signal.SELL else Signal.HOLD := by
  unfold signalOf optLt optGt
  by_cases h1 : v < 30
  · simp [h1]
  · by_cases h2 : 70 < v <;> simp [h1, h2]

lemma getLast?_some {α : Type _} (l : List α) (h : l ≠ []) : ∃ x, l.getLast? = some x := by
  cases l with
  | nil => exact absurd rfl h
  | cons a as => exact ⟨_, rfl⟩

/-- C1: For every price series with at least 15 rows, `analyze` succeeds;
the final RSI is defined and lies in [0,100], the returned (rounded) RSI
also lies in [0,100], and the returned signal is exactly BUY when the
final RSI is < 30, SELL when it is > 70, and HOLD otherwise. -/
theorem analyze_rsi_in_range_signal_thresholds (s : PriceSeries) (h : 15 ≤ s.length) :
    ∃ v r, rsiLast (s.map Prod.snd) = some v ∧ analyze s = Except.ok r ∧
      0 ≤ v ∧ v ≤ 100 ∧
      r.rsi = some (roundTo2 v) ∧ 0 ≤ roundTo2 v ∧ roundTo2 v ≤ 100 ∧
      r.signal = if v < 30 then Signal.BUY else if 70 < v then Signal.SELL else Signal.HOLD := by
  have hne : s ≠ [] := by
    intro he
    rw [he] at h
    simp at h
  obtain ⟨l, hl⟩ := getLast?_some s hne
  have hlen : 14 ≤ (s.map Prod.snd).length := by
    rw [List.length_map]
    omega
  have hrsi := rsiLast_eq_of_len (s.map Prod.snd) hlen
  have hb := rsiFrom_bounds (s.map Prod.snd)
  have hr2 := roundTo2_bounds (rsiFrom (s.map Prod.snd)) hb.1 hb.2
  refine ⟨rsiFrom (s.map Prod.snd),
    ⟨l.1.take 19, l.2, some (roundTo2 (rsiFrom (s.map Prod.snd))),
      signalOf (some (rsiFrom (s.map Prod.snd)))⟩,
    hrsi, ?_, hb.1, hb.2, rfl, hr2.1, hr2.2, signalOf_some _⟩
  unfold analyze
  rw [hl, hrsi]
  rfl

/-- Witness for C1 at a concrete 15-row rising series. -/
theorem analyze_rsi_in_range_signal_thresholds_witness :
    ∃ v r, rsiLast (series15.map Prod.snd) = some v ∧ analyze series15 = Except.ok r ∧
      0 ≤ v ∧ v ≤ 100 ∧
      r.rsi = some (roundTo2 v) ∧ 0 ≤ roundTo2 v ∧ roundTo2 v ≤ 100 ∧
      r.signal = if v < 30 then Signal.BUY else if 70 < v then Signal.SELL else Signal.HOLD :=
  analyze_rsi_in_range_signal_thresholds series15 (by decide)

/-- C2 counterexample: a one-row series has fewer than 15 rows, yet
`analyze` does not fail — it returns a result (with signal HOLD), so no
`InsufficientDataError` is raised for short series. -/
theorem analyze_under_fifteen_rows_cex :
    (([("2024-01-01", (100:ℚ))] : PriceSeries).length < 15) ∧
      analyze [("2024-01-01", (100:ℚ))] =
        Except.ok { date := "2024-01-01", close := 100, rsi := none, signal := Signal.HOLD } :=
  ⟨by decide, rfl⟩

/-- C2 amended: for a series with fewer than 15 rows, `analyze` fails
(with a generic `RuntimeError`, no `InsufficientDataError` exists in the
code) exactly when the series is empty; any nonempty short series yields
a normal result. -/
theorem analyze_under_fifteen_rows_amended (s : PriceSeries) (_h : s.length < 15) :
    (s = [] → analyze s = Except.error (Err.runtimeError "Empty DataFrame in analyze().")) ∧
      (s ≠ [] → ∃ r, analyze s = Except.ok r) := by
  constructor
  · intro he
    rw [he]
    rfl
  · intro hne
    obtain ⟨l, hl⟩ := getLast?_some s hne
    refine ⟨⟨l.1.take 19, l.2, (rsiLast (s.map Prod.snd)).map roundTo2,
      signalOf (rsiLast (s.map Prod.snd))⟩, ?_⟩
    unfold analyze
    rw [hl]

/-- Witness for the amended C2. -/
theorem analyze_under_fifteen_rows_amended_witness :
    analyze ([] : PriceSeries) = Except.error (Err.runtimeError "Empty DataFrame in analyze().") ∧
      ∃ r, analyze [("d", (2:ℚ))] = Except.ok r :=
  ⟨(analyze_under_fifteen_rows_amended [] (by decide)).1 rfl,
   (analyze_under_fifteen_rows_amended [("d", (2:ℚ))] (by decide)).2 (by decide)⟩

/-- C9: `analyze` fails exactly on the empty series; and whenever the
final RSI is undefined (NaN) on a nonempty series — which is the
unfilled-window case — the returned signal is HOLD, since the NaN
satisfies neither threshold comparison. -/
theorem analyze_error_iff_empty_series (s : PriceSeries) :
    ((exceptIsOk (analyze s) = false) ↔ s = []) ∧
      (s ≠ [] → rsiLast (s.map Prod.snd) = none →
        ∃ r, analyze s = Except.ok r ∧ r.signal = Signal.HOLD) := by
  cases s with
  | nil =>
    constructor
    · simp [analyze, exceptIsOk]
    · intro h
      exact absurd rfl h
  | cons a as =>
    obtain ⟨l, hl⟩ := getLast?_some (a :: as) (by simp)
    constructor
    · constructor
      · intro hfalse
        unfold analyze at hfalse
        rw [hl] at hfalse
        simp [exceptIsOk] at hfalse
      · intro h
        exact List.noConfusion h
    · intro _ hnone
      refine ⟨⟨l.1.take 19, l.2, none, Signal.HOLD⟩, ?_, rfl⟩
      unfold analyze
      rw [hl, hnone]
      rfl

/-- Witness for C9 at a one-row series (window unfilled). -/
theorem analyze_error_iff_empty_series_witness :
    ((exceptIsOk (analyze [("d", (1:ℚ))]) = false) ↔ ([("d", (1:ℚ))] : PriceSeries) = []) ∧
      ∃ r, analyze [("d", (1:ℚ))] = Except.ok r ∧ r.signal = Signal.HOLD := by
  have h := analyze_error_iff_empty_series [("d", (1:ℚ))]
  exact ⟨h.1, h.2 (by decide) rfl⟩

/-- C5: For every input message, the Notifier (`send`) never propagates a
failure — it always returns normally (`ok`) whatever the network outcome —
and when the bot token or destination id is falsy it performs no network
call at all: the trace is exactly the two local console prints. -/
theorem send_absorbs_all_failures (cfg : Config) (msg : String) (net : NetOutcome) :
    (send cfg msg net).2 = Except.ok () ∧
      (truthy cfg.telegramToken = false ∨ truthy cfg.telegramChat = false →
        (send cfg msg net).1 =
          [Event.console (sendHeader msg),
           Event.console "⚠️  No Telegram credentials set; printing only."]) := by
  unfold send
  split
  · exact ⟨rfl, fun _ => rfl⟩
  · next h =>
    split
    · exact ⟨rfl, fun hc => absurd hc h⟩
    · exact ⟨rfl, fun hc => absurd hc h⟩

/-- Witness for C5: with no credentials configured and a network that
would fail, `send` returns normally and only logs the two local lines. -/
theorem send_absorbs_all_failures_witness :
    (send noCfg "hi" (NetOutcome.netError "boom")).2 = Except.ok () ∧
      (send noCfg "hi" (NetOutcome.netError "boom")).1 =
        [Event.console (sendHeader "hi"),
         Event.console "⚠️  No Telegram credentials set; printing only."] := by
  have h := send_absorbs_all_failures noCfg "hi" (NetOutcome.netError "boom")
  exact ⟨h.1, h.2 (Or.inl rfl)⟩

/-- C10: For every call to the Notifier, the very first trace event is the
console print of the message with newlines replaced by " | " and the
result truncated to 400 characters — before any delivery attempt,
whatever the configuration and whatever the network outcome. -/
theorem send_console_header_always_first (cfg : Config) (msg : String) (net : NetOutcome) :
    (send cfg msg net).1.head? =
      some (Event.console ("SEND -> " ++ ((msg.replace "\n" " | ").take 400))) := by
  unfold send
  split
  · rfl
  · split <;> rfl

/-- C6: For every error raised inside the Fetcher, Normalizer, or Analyzer
(i.e. an `error` outcome of the pipeline), `run_once` prints the error
text, reports it through the Notifier (which itself never fails), and
re-raises the very same error. -/
theorem run_once_reports_and_reraises (cfg : Config) (download : Option Table)
    (net : NetOutcome) (e : Err) (h : pipeline download = Except.error e) :
    run_once cfg download net =
      (Event.console ("❗ Bot error: " ++ e.pyStr) ::
        (send cfg ("❗ Bot error: " ++ e.pyStr) net).1,
       Except.error e) ∧
      (send cfg ("❗ Bot error: " ++ e.pyStr) net).2 = Except.ok () := by
  constructor
  · unfold run_once
    rw [h]
  · exact (send_absorbs_all_failures cfg _ net).1

/-- Witness for C6: with no data from the provider, `run_once` reports the
fetch error and re-raises it. -/
theorem run_once_reports_and_reraises_witness :
    (run_once noCfg none (NetOutcome.response 200) =
      (Event.console ("❗ Bot error: " ++ (Err.runtimeError "No data from yfinance for ^NSEI.").pyStr) ::
        (send noCfg ("❗ Bot error: " ++ (Err.runtimeError "No data from yfinance for ^NSEI.").pyStr)
          (NetOutcome.response 200)).1,
       Except.error (Err.runtimeError "No data from yfinance for ^NSEI.")) ∧
      (send noCfg ("❗ Bot error: " ++ (Err.runtimeError "No data from yfinance for ^NSEI.").pyStr)
        (NetOutcome.response 200)).2 = Except.ok ()) :=
  run_once_reports_and_reraises noCfg none (NetOutcome.response 200)
    (Err.runtimeError "No data from yfinance for ^NSEI.") rfl

end TradingBot
